import Mathlib

/- Verification of the curve-phase meta-phenotype extraction pipeline of
scanomatic (src/scanomatic/data_processing/phases/features.py) and of the
phenotyper state container (src/scanomatic/data_processing/pheno/state.py).
The per-cell functions below are shallow embeddings of the corresponding
Python functions; numpy's elementwise frompyfunc dispatch is modelled by
applying the per-cell function to one cell, and an uncaught Python
exception is modelled by the error case of Except. -/

namespace Scanomatic

/-- Model of a Python/numpy float: an exact rational extended with the
IEEE special values. Rounding is not modelled (the claims concern signs,
orderings and NaN/inf propagation, which exact arithmetic preserves), and
negative zero is identified with zero. -/
inductive F where
  | nan : F
  | pinf : F
  | ninf : F
  | val : ℚ → F
deriving DecidableEq, Repr

namespace F

/-- IEEE-style strict less-than: every comparison with NaN is false. -/
def ltB : F → F → Bool
  | nan, _ => false
  | _, nan => false
  | ninf, ninf => false
  | ninf, _ => true
  | _, ninf => false
  | pinf, _ => false
  | val _, pinf => true
  | val a, val b => decide (a < b)

/-- IEEE-style less-or-equal: every comparison with NaN is false. -/
def leB : F → F → Bool
  | nan, _ => false
  | _, nan => false
  | ninf, _ => true
  | _, ninf => false
  | pinf, pinf => true
  | pinf, _ => false
  | _, pinf => true
  | val a, val b => decide (a ≤ b)

def isNan : F → Bool
  | nan => true
  | _ => false

/-- Python truthiness of a float: only zero is falsy. -/
def truthy : F → Bool
  | val a => decide (a ≠ 0)
  | _ => true

/-- Subtraction with IEEE special-value rules. -/
def sub : F → F → F
  | nan, _ => nan
  | _, nan => nan
  | pinf, pinf => nan
  | pinf, _ => pinf
  | ninf, ninf => nan
  | ninf, _ => ninf
  | val _, pinf => ninf
  | val _, ninf => pinf
  | val a, val b => val (a - b)

/-- Division with IEEE/numpy special-value rules; x/0 yields a signed
infinity (or NaN for 0/0) as numpy does, the sign of a zero divisor being
taken positive since negative zero is not modelled. -/
def div : F → F → F
  | nan, _ => nan
  | _, nan => nan
  | pinf, pinf => nan
  | pinf, ninf => nan
  | ninf, pinf => nan
  | ninf, ninf => nan
  | pinf, val b => if b < 0 then ninf else pinf
  | ninf, val b => if b < 0 then pinf else ninf
  | val _, pinf => val 0
  | val _, ninf => val 0
  | val a, val b =>
      if b = 0 then (if a = 0 then nan else if a < 0 then ninf else pinf)
      else val (a / b)

def fabs : F → F
  | nan => nan
  | pinf => pinf
  | ninf => pinf
  | val a => val |a|

/-- Sort tier of a float under numpy sorting: -inf, finite, +inf, NaN last. -/
def tier : F → Nat
  | ninf => 0
  | val _ => 1
  | pinf => 2
  | nan => 3

/-- Finite value of a float, zero on the special values (used only to
compare within the finite tier). -/
def qval : F → ℚ
  | val a => a
  | _ => 0

end F

/-- Modelled from the spec: the CurvePhases enumeration of
scanomatic.data_processing.phases.segmentation (that module is not among
the sources at hand; section 3 of the spec lists the variants, with
Acceleration and Retardation named GrowthAcceleration and
GrowthRetardation by the callers in features.py). -/
inductive CurvePhases where
  | Undetermined
  | Flat
  | GrowthAcceleration
  | Impulse
  | GrowthRetardation
  | Collapse
  | UndeterminedNonLinear
deriving DecidableEq, Repr

/-- Modelled from the spec: the per-segment phenotype keys of
scanomatic.data_processing.phases.analysis (module not among the sources;
sections 2 and 4.2 of the spec name these measures). -/
inductive CurvePhasePhenotypes where
  | PopulationDoublings
  | PopulationDoublingTime
  | LinearModelSlope
  | LinearModelIntercept
  | AsymptoteAngle
  | AsymptoteIntersection
  | Start
  | Duration
deriving DecidableEq, Repr

/-- Modelled from the spec: the non-linear detection predicate of
scanomatic.data_processing.phases.segmentation distinguishes
Acceleration, Retardation and Collapse from the linear phases. -/
def is_detected_non_linear : CurvePhases → Bool
  | CurvePhases.GrowthAcceleration => true
  | CurvePhases.GrowthRetardation => true
  | CurvePhases.Collapse => true
  | _ => false

/-- Python exceptions distinguished by the handlers in features.py. -/
inductive PyErr where
  | typeError
  | valueError
  | indexError
  | keyError
deriving DecidableEq, Repr

/-- A segment's phenotype dict: a partial map from phenotype keys to
values, the outer Option being key presence (none raises KeyError on
lookup) and the inner Option the stored value (none is Python None). -/
def PhaseDict := CurvePhasePhenotypes → Option (Option F)

/-- Python dict lookup d[k]. -/
def PhaseDict.look (d : PhaseDict) (k : CurvePhasePhenotypes) :
    Except PyErr (Option F) :=
  match d k with
  | none => .error .keyError
  | some v => .ok v

/-- One element of a stored PhaseVector as a Python object: a well-formed
(phase, phenotype-dict) pair, a tuple of wrong arity (its leading elements
kept), or a non-iterable object. -/
inductive Entry where
  | pair (t : CurvePhases) (d : Option PhaseDict)
  | empty
  | single (t : CurvePhases)
  | triple (t : CurvePhases) (d : Option PhaseDict)
  | nonIter

/-- Tuple unpacking as in `for t, d in phenotype_vector`: a wrong-arity
tuple raises ValueError, a non-iterable raises TypeError. -/
def Entry.unpack2 : Entry → Except PyErr (CurvePhases × Option PhaseDict)
  | .pair t d => .ok (t, d)
  | .empty => .error .valueError
  | .single _ => .error .valueError
  | .triple _ _ => .error .valueError
  | .nonIter => .error .typeError

/-- Python entry[0]. -/
def Entry.elem0 : Entry → Except PyErr CurvePhases
  | .pair t _ => .ok t
  | .empty => .error .indexError
  | .single t => .ok t
  | .triple t _ => .ok t
  | .nonIter => .error .typeError

/-- Python entry[1]. -/
def Entry.elem1 : Entry → Except PyErr (Option PhaseDict)
  | .pair _ d => .ok d
  | .empty => .error .indexError
  | .single _ => .error .indexError
  | .triple _ d => .ok d
  | .nonIter => .error .typeError

def Entry.isPair : Entry → Bool
  | .pair _ _ => true
  | _ => false

/-- One plate cell: Python None (or any non-iterable) or a stored
sequence of entries. -/
inductive Cell where
  | pyNone
  | vec (entries : List Entry)

/-- Error-propagating map, evaluating left to right as a consumed Python
generator does. -/
def mapE (f : α → Except PyErr β) : List α → Except PyErr (List β)
  | [] => .ok []
  | a :: l =>
    match f a with
    | .error e => .error e
    | .ok b =>
      match mapE f l with
      | .error e => .error e
      | .ok bs => .ok (b :: bs)

/-- Iterating and unpacking a cell's entries; iterating Python None
raises TypeError. -/
def cellPairs : Cell → Except PyErr (List (CurvePhases × Option PhaseDict))
  | .pyNone => .error .typeError
  | .vec es => mapE Entry.unpack2 es

/-- The `except TypeError: return nan` handler shape used in features.py:
a TypeError becomes NaN, every other exception propagates. -/
def catchTypeToNan : Except PyErr F → Except PyErr F
  | .error .typeError => .ok F.nan
  | r => r

/-- The `except TypeError: return -1` handler shape used in features.py. -/
def catchTypeToNeg1 : Except PyErr Int → Except PyErr Int
  | .error .typeError => .ok (-1)
  | r => r

/-- Python sequence indexing, accepting negative indices. -/
def pyGet (l : List α) (i : Int) : Except PyErr α :=
  let j : Int := if i < 0 then (l.length : Int) + i else i
  if h : 0 ≤ j ∧ j.toNat < l.length then .ok (l.get ⟨j.toNat, h.2⟩)
  else .error .indexError

/-- Lexicographic sort key (tier, finite value, original index) giving a
stable argsort over floats with NaN placed last, as numpy sorts. -/
def argKey (ks : List F) (i : Nat) : Nat ×ₗ (ℚ ×ₗ Nat) :=
  toLex (F.tier (ks.getD i F.nan), toLex (F.qval (ks.getD i F.nan), i))

def argLe (ks : List F) (i j : Nat) : Prop :=
  argKey ks i ≤ argKey ks j

instance (ks : List F) : DecidableRel (argLe ks) :=
  fun i j => inferInstanceAs (Decidable (_ ≤ _))

/-- Model of np.argsort: the index list sorted by key. The default numpy
sort is unstable on ties; the stable order is taken as the model (every
use below is either tie-free or tie-insensitive). -/
def argsortF (ks : List F) : List Nat :=
  List.insertionSort (argLe ks) (List.range ks.length)

/-- The phase_selector closures of extract_phenotypes: a positional pick
or a pick by ascending-PopulationDoublings rank. -/
inductive Selector where
  | first
  | last
  | rank (index : Int)

/-- The ranking key used inside the argsort phase selectors of
extract_phenotypes: PopulationDoublings when truthy, else -inf; a missing
dict raises TypeError, a missing key raises KeyError. -/
def doublingsKey : Option PhaseDict → Except PyErr F
  | none => .error .typeError
  | some d =>
    match d.look .PopulationDoublings with
    | .error e => .error e
    | .ok none => .ok F.ninf
    | .ok (some x) => .ok (if F.truthy x then x else F.ninf)

def selectPhase : Selector → List (Option PhaseDict) →
    Except PyErr (Option PhaseDict)
  | .first, ds => pyGet ds 0
  | .last, ds => pyGet ds (-1)
  | .rank idx, ds =>
    match mapE doublingsKey ds with
    | .error e => .error e
    | .ok ks =>
      match pyGet (argsortF ks) idx with
      | .error e => .error e
      | .ok j => pyGet ds (j : Int)

/-- The collection step of filter_plate_custom_filter: unpack the cell's
entries and keep the phenotype dicts of the segments labelled phase. -/
def collectDicts (phase : CurvePhases) (v : Cell) :
    Except PyErr (List (Option PhaseDict)) :=
  match cellPairs v with
  | .error e => .error e
  | .ok ps => .ok ((ps.filter (fun p => p.1 == phase)).map Prod.snd)

/-- Per-cell filter_plate_custom_filter: collect the dicts of the given
phase, check the length requirement, select one dict and read the
measure; a TypeError anywhere gives NaN, other exceptions propagate, and
a stored Python None value is NaN after the float cast. -/
def filter_cell_custom (phase : CurvePhases) (measure : CurvePhasePhenotypes)
    (need : Nat) (sel : Selector) (v : Cell) : Except PyErr F :=
  catchTypeToNan
    (match collectDicts phase v with
     | .error e => .error e
     | .ok ds =>
       if need ≤ ds.length then
         match selectPhase sel ds with
         | .error e => .error e
         | .ok none => .error .typeError
         | .ok (some d) =>
           match d.look measure with
           | .error e => .error e
           | .ok none => .ok F.nan
           | .ok (some y) => .ok y
       else .ok F.nan)

/-- The per-cell phase index argument of filter_plate_on_phase_id: an
integer index or the NaN a masked major-impulse index becomes. -/
inductive PhaseId where
  | nanId
  | idx (i : Int)

/-- The `except (KeyError, TypeError): return nan` handler of
filter_plate_on_phase_id. -/
def catchKeyTypeToNan : Except PyErr F → Except PyErr F
  | .error .typeError => .ok F.nan
  | .error .keyError => .ok F.nan
  | r => r

/-- Per-cell filter_plate_on_phase_id: indexing with NaN raises a caught
TypeError, a negative index short-circuits to NaN, otherwise the entry's
dict is read; KeyError and TypeError degrade to NaN, IndexError
propagates. -/
def filter_cell_on_phase_id (measure : CurvePhasePhenotypes) (v : Cell)
    (pid : PhaseId) : Except PyErr F :=
  match pid with
  | .nanId => .ok F.nan
  | .idx i =>
    if i < 0 then .ok F.nan
    else
      catchKeyTypeToNan
        (match v with
         | .pyNone => .error .typeError
         | .vec es =>
           match pyGet es i with
           | .error e => .error e
           | .ok e =>
             match e.elem1 with
             | .error e2 => .error e2
             | .ok none => .error .typeError
             | .ok (some d) =>
               match d.look measure with
               | .error e2 => .error e2
               | .ok none => .ok F.nan
               | .ok (some y) => .ok y)

/-- First element of an entry where one is sure to exist (used only under
a guard excluding the empty and non-iterable shapes). -/
def Entry.firstType : Entry → CurvePhases
  | .pair t _ => t
  | .single t => t
  | .triple t _ => t
  | _ => CurvePhases.Undetermined

def Entry.isEmptyTuple : Entry → Bool
  | .empty => true
  | _ => false

def Entry.isNonIter : Entry → Bool
  | .nonIter => true
  | _ => false

/-- The `tuple(zip(star v))[0]` transposition of _get_phase_id: building
zip calls iter on every entry, so a non-iterable entry raises TypeError;
zip truncates to the shortest entry, so an empty entry (or an empty cell)
makes the indexing raise IndexError; otherwise the first components are
returned. -/
def transposeFirst (es : List Entry) : Except PyErr (List CurvePhases) :=
  if es.any Entry.isNonIter then .error .typeError
  else if es.isEmpty || es.any Entry.isEmptyTuple then .error .indexError
  else .ok (es.map Entry.firstType)

/-- The scanning loop of _get_phase_id: walk the type sequence matching
the target sequence as a subsequence, returning the index at which the
last target matches, -1 when the targets are not exhausted. -/
def scanAux (targets : List CurvePhases) :
    List CurvePhases → Nat → Nat → Int
  | [], _, _ => -1
  | t :: rest, idp, i =>
    match targets.get? i with
    | none => scanAux targets rest (idp + 1) i
    | some tgt =>
      if t == tgt then
        (if i + 1 == targets.length then (idp : Int)
         else scanAux targets rest (idp + 1) (i + 1))
      else scanAux targets rest (idp + 1) i

/-- Per-cell _get_phase_id: transpose the cell, scan for the target
sequence; a TypeError gives -1, IndexError propagates. -/
def getPhaseIdCell (targets : List CurvePhases) (v : Cell) :
    Except PyErr Int :=
  catchTypeToNeg1
    (match v with
     | .pyNone => .error .typeError
     | .vec es =>
       match transposeFirst es with
       | .error e => .error e
       | .ok ts => .ok (scanAux targets ts 0 0))

/-- The ranking key of _py_get_major_impulse_for_plate: doublings when
the dict is present and the value truthy, else -inf; unlike the selector
key, a missing dict is -inf (no error), but a missing key still raises
KeyError. -/
def doublingsKeyMajor : Option PhaseDict → Except PyErr F
  | none => .ok F.ninf
  | some d =>
    match d.look .PopulationDoublings with
    | .error e => .error e
    | .ok none => .ok F.ninf
    | .ok (some x) => .ok (if F.truthy x then x else F.ninf)

/-- First position of the maximum (np.argmax) on a nonempty list,
tracking the best index, best value and current position. -/
def argmaxAux : Nat → Nat → Nat → List Nat → Nat
  | best, _, _, [] => best
  | best, bestV, i, x :: l =>
    if bestV < x then argmaxAux i x (i + 1) l
    else argmaxAux best bestV (i + 1) l

def argmaxNat : List Nat → Nat
  | [] => 0
  | x :: l => argmaxAux 0 x 1 l

/-- Per-cell _py_get_major_impulse_for_plate, embedded as written in the
source, including its enumerate of the argsort output filtered on the
phase label at the enumeration position and the impulses.any() emptiness
test over the collected index pairs. -/
def py_get_major_impulse (v : Cell) : Except PyErr Int :=
  catchTypeToNeg1
    (match cellPairs v with
     | .error e => .error e
     | .ok ps =>
       match mapE doublingsKeyMajor (ps.map Prod.snd) with
       | .error e => .error e
       | .ok ks =>
         let so := argsortF ks
         let imps := so.enum.filter
           (fun p => (ps.getD p.1 (CurvePhases.Undetermined, none)).1
             == CurvePhases.Impulse)
         if imps.any (fun p => p.1 != 0 || p.2 != 0) then
           .ok ((imps.getD (argmaxNat (imps.map Prod.snd)) (0, 0)).1 : Int)
         else .ok (-1))

/-- Per-cell _np_ma_get_major_impulse_indices: negative indices are
replaced by NaN before use as a phase id. -/
def major_phase_id (v : Cell) : Except PyErr PhaseId :=
  match py_get_major_impulse v with
  | .error e => .error e
  | .ok i => .ok (if i < 0 then PhaseId.nanId else PhaseId.idx i)

/-- The numpy masking `lag[lag < 0] = nan`. -/
def maskNegToNan (x : F) : F :=
  if F.ltB x (F.val 0) then F.nan else x

/-- Per-cell InitialLag branch of extract_phenotypes: first-Flat line
versus the line of the Impulse located by _get_phase_id(Flat, Impulse),
crossing time masked to NaN when negative. -/
def initialLag_cell (v : Cell) : Except PyErr F :=
  match filter_cell_custom .Flat .LinearModelSlope 1 .first v with
  | .error e => .error e
  | .ok fs =>
    match filter_cell_custom .Flat .LinearModelIntercept 1 .first v with
    | .error e => .error e
    | .ok fi =>
      match getPhaseIdCell [CurvePhases.Flat, CurvePhases.Impulse] v with
      | .error e => .error e
      | .ok pid =>
        match filter_cell_on_phase_id .LinearModelSlope v (.idx pid) with
        | .error e => .error e
        | .ok impulse_slope =>
          match filter_cell_on_phase_id .LinearModelIntercept v (.idx pid) with
          | .error e => .error e
          | .ok impulse_icept =>
            .ok (maskNegToNan
              (F.div (F.sub impulse_icept fi) (F.sub fs impulse_slope)))

/-- Per-cell TimeBeforeMajorGrowth branch of extract_phenotypes: same
crossing-time formula with the plate-wide major-impulse index. -/
def timeBeforeMajorGrowth_cell (v : Cell) : Except PyErr F :=
  match filter_cell_custom .Flat .LinearModelSlope 1 .first v with
  | .error e => .error e
  | .ok fs =>
    match filter_cell_custom .Flat .LinearModelIntercept 1 .first v with
    | .error e => .error e
    | .ok fi =>
      match major_phase_id v with
      | .error e => .error e
      | .ok pid =>
        match filter_cell_on_phase_id .LinearModelSlope v pid with
        | .error e => .error e
        | .ok impulse_slope =>
          match filter_cell_on_phase_id .LinearModelIntercept v pid with
          | .error e => .error e
          | .ok impulse_icept =>
            .ok (maskNegToNan
              (F.div (F.sub impulse_icept fi) (F.sub fs impulse_slope)))

/-- The _flank_angle helper of _py_get_flanking_angle_relation, with
np.arctan2 and np.pi abstracted as parameters (transcendental and
value-irrelevant to the claims): a missing flank gives a synthetic
arctan2 reference against the impulse slope, a Flat flank the pi-minus-
absolute-difference pseudo-angle of the two linear slopes, a non-linear
flank its stored AsymptoteAngle (possibly Python None), anything else
+inf. A Python None slope fed to arctan2 raises TypeError. -/
def flank_angle (at2 : F → F → F) (piF : F) (imp : PhaseDict) :
    Option Entry → Except PyErr (Option F)
  | none =>
    (match imp.look .LinearModelSlope with
     | .error e => .error e
     | .ok none => .error .typeError
     | .ok (some x) => .ok (some (at2 (F.val 1) x)))
  | some fl =>
    match fl.elem0 with
    | .error e => .error e
    | .ok t =>
      if t == CurvePhases.Flat then
        match imp.look .LinearModelSlope with
        | .error e => .error e
        | .ok none => .error .typeError
        | .ok (some xi) =>
          match fl.elem1 with
          | .error e => .error e
          | .ok none => .error .typeError
          | .ok (some fd) =>
            match fd.look .LinearModelSlope with
            | .error e => .error e
            | .ok none => .error .typeError
            | .ok (some xf) =>
              .ok (some (F.sub piF
                (F.fabs (F.sub (at2 (F.val 1) xi) (at2 (F.val 1) xf)))))
      else if is_detected_non_linear t then
        match fl.elem1 with
        | .error e => .error e
        | .ok none => .error .typeError
        | .ok (some fd) =>
          match fd.look .AsymptoteAngle with
          | .error e => .error e
          | .ok a => .ok a
      else .ok (some F.pinf)

/-- Per-cell _py_get_flanking_angle_relation: +inf on a NaN index, a
missing phenotype dict or a non-Impulse label at the index (the last
logged as an error in the source); otherwise the ratio of the right to
the left flanking angle, where dividing by (or) a Python None angle
raises TypeError. -/
def py_get_flanking_angle_relation (at2 : F → F → F) (piF : F)
    (es : List Entry) (pid : PhaseId) : Except PyErr F :=
  match pid with
  | .nanId => .ok F.pinf
  | .idx i =>
    match pyGet es i with
    | .error e => .error e
    | .ok e =>
      match e.elem1 with
      | .error e2 => .error e2
      | .ok none => .ok F.pinf
      | .ok (some d) =>
        match e.elem0 with
        | .error e2 => .error e2
        | .ok t =>
          if t == CurvePhases.Impulse then
            match (if 0 < i then
                     (match pyGet es (i - 1) with
                      | .error e2 => .error e2
                      | .ok le => .ok (some le))
                   else (.ok none : Except PyErr (Option Entry))) with
            | .error e2 => .error e2
            | .ok leftFl =>
              match flank_angle at2 piF d leftFl with
              | .error e2 => .error e2
              | .ok a1 =>
                match (if i < (es.length : Int) - 1 then
                         (match pyGet es (i + 1) with
                          | .error e2 => .error e2
                          | .ok re => .ok (some re))
                       else (.ok none : Except PyErr (Option Entry))) with
                | .error e2 => .error e2
                | .ok rightFl =>
                  match flank_angle at2 piF d rightFl with
                  | .error e2 => .error e2
                  | .ok a2 =>
                    match a2, a1 with
                    | some x, some y => .ok (F.div x y)
                    | _, _ => .error .typeError
          else .ok F.pinf

/-- Per-cell sum of _py_impulse_counter over unpacked-by-index entries:
entry[0] on a non-iterable raises TypeError, on an empty tuple
IndexError. -/
def countImpulsesE : List Entry → Except PyErr Nat
  | [] => .ok 0
  | e :: l =>
    match e.elem0 with
    | .error e2 => .error e2
    | .ok t =>
      match countImpulsesE l with
      | .error e2 => .error e2
      | .ok n => .ok (if t == CurvePhases.Impulse then n + 1 else n)

/-- Per-cell _py_impulse_counter: TypeError yields -1, IndexError
propagates. -/
def py_impulse_counter (v : Cell) : Except PyErr Int :=
  catchTypeToNeg1
    (match v with
     | .pyNone => .error .typeError
     | .vec es =>
       match countImpulsesE es with
       | .error e => .error e
       | .ok n => .ok (n : Int))

/-- The enumerate-and-unpack loop of _phase_finder. -/
def phaseFinderAux (phase : CurvePhases) : Nat → List Entry →
    Except PyErr (List Nat)
  | _, [] => .ok []
  | i, e :: rest =>
    match e.unpack2 with
    | .error e2 => .error e2
    | .ok td =>
      match phaseFinderAux phase (i + 1) rest with
      | .error e2 => .error e2
      | .ok l => .ok (if td.1 == phase then i :: l else l)

/-- Per-cell _phase_finder: indices of the entries labelled phase;
TypeError gives an empty tuple, ValueError from a wrong-arity entry
propagates. -/
def phase_finder (phase : CurvePhases) (v : Cell) :
    Except PyErr (List Nat) :=
  match (match v with
         | Cell.pyNone => (.error PyErr.typeError : Except PyErr (List Nat))
         | Cell.vec es => phaseFinderAux phase 0 es) with
  | .error .typeError => .ok []
  | r => r

/-- Python slicing v[a:b] of a cell; slicing None raises TypeError. -/
def cellSlice (v : Cell) (a b : Nat) : Except PyErr Cell :=
  match v with
  | .pyNone => .error .typeError
  | .vec es => .ok (.vec ((es.drop a).take (b - a)))

/-- Per-cell _py_inner_impulse_counter: -1 without an Acceleration or
without a Retardation, otherwise the impulse count of the slice from the
first Acceleration to the last Retardation. -/
def py_inner_impulse_counter (v : Cell) : Except PyErr Int :=
  catchTypeToNeg1
    (match phase_finder CurvePhases.GrowthAcceleration v with
     | .error e => .error e
     | .ok acc =>
       if acc.isEmpty then .ok (-1)
       else
         match phase_finder CurvePhases.GrowthRetardation v with
         | .error e => .error e
         | .ok ret =>
           if ret.isEmpty then .ok (-1)
           else
             match cellSlice v (acc.headD 0) (ret.getLastD 0) with
             | .error e => .error e
             | .ok sliced => py_impulse_counter sliced)

/-- Per-cell ModalitiesAlternativeModel (_np_ma_inner_impulse_counter):
negative counts become NaN after the float cast. -/
def modalitiesAlternativeModel_cell (v : Cell) : Except PyErr F :=
  match py_inner_impulse_counter v with
  | .error e => .error e
  | .ok c => .ok (if c < 0 then F.nan else F.val (c : ℚ))

/-- One alignment slot of get_phase_phenotypes_aligned: a phase type, the
member set (as a list of (curve, segment) references) and the running
average anchor. The anchor is modelled as a rational (the sort behaviour
of Python lists under NaN keys is unspecified and outside the claims). -/
structure PhaseSlot where
  ptype : CurvePhases
  members : List (Nat × Nat)
  anchor : ℚ

/-- The pass-end survival threshold of get_phase_phenotypes_aligned:
int(0.05 times the eligible-curve count) on passes with n below 9, zero
on the final pass n = 9 (the float literal 0.05 is modelled as the exact
rational 1/20; the rounding difference cannot cross an integer). -/
def slotThreshold (n : Nat) (curveCount : Nat) : Nat :=
  if n == 9 then 0 else (((curveCount : ℚ) / 20).floor).toNat

def slotLe (a b : PhaseSlot) : Prop :=
  a.anchor ≤ b.anchor

instance : DecidableRel slotLe :=
  fun a b => inferInstanceAs (Decidable (_ ≤ _))

/-- The pass-end rebuild of the slot list in get_phase_phenotypes_aligned
(the line sorting phases by anchor and dropping the slots at or below the
threshold); Python's stable sorted is modelled by insertion sort. -/
def post_pass_filter (n curveCount : Nat) (slots : List PhaseSlot) :
    List PhaseSlot :=
  (List.insertionSort slotLe slots).filter
    (fun s => slotThreshold n curveCount < s.members.length)

/-- The refinement loop skeleton of get_phase_phenotypes_aligned: m
passes, each an abstracted per-curve assignment body followed by the
pass-end sort-and-filter; the source runs exactly m = 10. -/
def alignment_passes (body : Nat → List PhaseSlot → List PhaseSlot)
    (curveCount : Nat) (m : Nat) (init : List PhaseSlot) :
    List PhaseSlot :=
  (List.range m).foldl (fun st n => post_pass_filter n curveCount (body n st))
    init

/-- The full refinement loop of get_phase_phenotypes_aligned: the source
iterates `for n in range(10)`. -/
def alignment_refinement (body : Nat → List PhaseSlot → List PhaseSlot)
    (curveCount : Nat) (init : List PhaseSlot) : List PhaseSlot :=
  alignment_passes body curveCount 10 init

/-- The PhenotyperState dataclass of pheno/state.py, polymorphic in the
payload types; underscore_vector_phenotypes models the dynamically
created attribute named with a leading underscore that
wipe_extracted_phenotypes assigns (none = attribute absent). -/
structure PhenotyperState (Plates Raw Filt Undo VMeta VPh Norm : Type) where
  phenotypes : Option Plates
  raw_growth_data : Raw
  normalized_phenotypes : Option Norm
  phenotype_filter : Option Filt
  phenotype_filter_undo : Option Undo
  vector_meta_phenotypes : Option VMeta
  vector_phenotypes : Option VPh
  underscore_vector_phenotypes : Option (Option VPh)

/-- PhenotyperState.wipe_extracted_phenotypes as written in the source:
phenotypes and vector_meta_phenotypes are assigned None, the line meant
for vector_phenotypes assigns a fresh attribute _vector_phenotypes
instead, and unless keep_filter the filter and its undo history are also
cleared. -/
def wipe_extracted_phenotypes (s : PhenotyperState P R Fi U VM VP N)
    (keep_filter : Bool) : PhenotyperState P R Fi U VM VP N :=
  let s1 := { s with
    phenotypes := none
    underscore_vector_phenotypes := some none
    vector_meta_phenotypes := none }
  if keep_filter then s1
  else { s1 with phenotype_filter := none, phenotype_filter_undo := none }

/-- A cell whose entries are all well-formed (phase, dict) pairs. -/
def allPairs (es : List Entry) : Bool :=
  es.all Entry.isPair

/-- The phase-label sequence of a list of entries (meaningful for
well-formed entries). -/
def entriesTypes (es : List Entry) : List CurvePhases :=
  es.map Entry.firstType

/-- First index satisfying a predicate. -/
def firstIdx (p : CurvePhases → Bool) : List CurvePhases → Option Nat
  | [] => none
  | t :: rest => if p t then some 0 else (firstIdx p rest).map (· + 1)

/-- Last index satisfying a predicate. -/
def lastIdx (p : CurvePhases → Bool) : List CurvePhases → Option Nat
  | [] => none
  | t :: rest =>
    match lastIdx p rest with
    | some k => some (k + 1)
    | none => if p t then some 0 else none

/-- Python list slicing l[a:b] for nonnegative bounds. -/
def pySlice (l : List α) (a b : Nat) : List α :=
  (l.drop a).take (b - a)

/-- Modelled from the spec for comparison (claim C1): the index of an
Impulse segment whose PopulationDoublings is highest among the Impulse
segments of the curve (first such index on ties), none when the curve has
no Impulse segment; segments given as (phase, doublings) pairs. -/
def spec_major_impulse_index (segs : List (CurvePhases × F)) : Option Nat :=
  let imps := segs.enum.filter (fun p => p.2.1 == CurvePhases.Impulse)
  match imps with
  | [] => none
  | p :: rest =>
    some (rest.foldl
      (fun best q => if F.ltB best.2 q.2.2 then (q.1, q.2.2) else best)
      (p.1, p.2.2)).1

/-- Modelled from the spec for comparison (claim C3): the index of the
Impulse of the first adjacent Flat-then-Impulse transition in the
phase-type sequence, -1 when no adjacent pair exists. -/
def spec_adjacent_flat_impulse_id (ts : List CurvePhases) : Int :=
  spec_adjacent_aux 0 ts
where
  spec_adjacent_aux : Nat → List CurvePhases → Int
    | _, [] => -1
    | _, [_] => -1
    | i, t1 :: t2 :: rest =>
      if t1 == CurvePhases.Flat && t2 == CurvePhases.Impulse then
        ((i + 1 : Nat) : Int)
      else spec_adjacent_aux (i + 1) (t2 :: rest)

/-- What the scan of _get_phase_id(Flat, Impulse) computes: the first
Impulse strictly after the first Flat of the type sequence, -1 when no
Flat is followed (not necessarily immediately) by an Impulse. -/
def first_impulse_after_first_flat (ts : List CurvePhases) : Int :=
  match firstIdx (fun t => t == CurvePhases.Flat) ts with
  | none => -1
  | some f =>
    match firstIdx (fun t => t == CurvePhases.Impulse) (ts.drop (f + 1)) with
    | none => -1
    | some k => ((f + 1 + k : Nat) : Int)

/-- The count of claim C6: Impulse segments at indices strictly between
a and r, i.e. in the python slice from a+1 to r. -/
def spec_inner_impulse_count (ts : List CurvePhases) (a r : Nat) : Nat :=
  (pySlice ts (a + 1) r).countP (fun t => t == CurvePhases.Impulse)

instance [DecidableEq ε] [DecidableEq α] : DecidableEq (Except ε α) :=
  fun a b =>
    match a, b with
    | .error e1, .error e2 =>
      if h : e1 = e2 then isTrue (h ▸ rfl)
      else isFalse (fun hh => h (Except.error.inj hh))
    | .ok x, .ok y =>
      if h : x = y then isTrue (h ▸ rfl)
      else isFalse (fun hh => h (Except.ok.inj hh))
    | .error _, .ok _ => isFalse (fun hh => Except.noConfusion hh)
    | .ok _, .error _ => isFalse (fun hh => Except.noConfusion hh)

/-- A phenotype dict holding only PopulationDoublings. -/
def pdDict (x : F) : PhaseDict :=
  fun k =>
    match k with
    | CurvePhasePhenotypes.PopulationDoublings => some (some x)
    | _ => none

/-- A curve whose only phase is an Impulse with doublings 5. -/
def cellOneImpulse : Cell :=
  Cell.vec [Entry.pair CurvePhases.Impulse (some (pdDict (F.val 5)))]

/-- A curve with impulses of doublings 10 and 20 followed by flat phases
of doublings 30 and 5. -/
def cellTwoImpulses : Cell :=
  Cell.vec
    [Entry.pair CurvePhases.Impulse (some (pdDict (F.val 10))),
     Entry.pair CurvePhases.Impulse (some (pdDict (F.val 20))),
     Entry.pair CurvePhases.Flat (some (pdDict (F.val 30))),
     Entry.pair CurvePhases.Flat (some (pdDict (F.val 5)))]

/-- Claim C1 (code bug): the plate-wide major-impulse locator does not
return the index of the highest-doublings Impulse. On a curve whose only
phase is an Impulse (doublings 5) it returns -1 although an Impulse
exists (the impulses.any() emptiness test sees only the zero pair), and
on the four-phase curve above it returns index 0 (doublings 10) although
the Impulse at index 1 has the higher doublings 20, because the source
filters enumerate(sort_order) on the phase label at the rank position and
maximises over sorted-index values; the spec-side definition picks 0 and
1 respectively. -/
theorem c1_major_impulse_locator_bug :
    py_get_major_impulse cellOneImpulse = .ok (-1)
    ∧ spec_major_impulse_index [(CurvePhases.Impulse, F.val 5)] = some 0
    ∧ py_get_major_impulse cellTwoImpulses = .ok 0
    ∧ spec_major_impulse_index
        [(CurvePhases.Impulse, F.val 10), (CurvePhases.Impulse, F.val 20),
         (CurvePhases.Flat, F.val 30), (CurvePhases.Flat, F.val 5)]
      = some 1 := by
  refine ⟨?_, ?_, ?_, ?_⟩ <;> decide

/-- Claim C9: wipe_extracted_phenotypes clears phenotypes and
vector_meta_phenotypes (and, unless keep_filter, also the phenotype
filter and its undo history) while vector_phenotypes and the raw growth
data keep their prior values, the wipe only creating the fresh
underscore-named attribute. -/
theorem c9_wipe_extracted_phenotypes
    (s : PhenotyperState P R Fi U VM VP N) (kf : Bool) :
    (wipe_extracted_phenotypes s kf).phenotypes = none
    ∧ (wipe_extracted_phenotypes s kf).vector_meta_phenotypes = none
    ∧ (wipe_extracted_phenotypes s kf).vector_phenotypes
      = s.vector_phenotypes
    ∧ (wipe_extracted_phenotypes s kf).raw_growth_data = s.raw_growth_data
    ∧ (wipe_extracted_phenotypes s false).phenotype_filter = none
    ∧ (wipe_extracted_phenotypes s false).phenotype_filter_undo = none
    ∧ (wipe_extracted_phenotypes s kf).underscore_vector_phenotypes
      = some none := by
  cases kf <;> simp [wipe_extracted_phenotypes]

lemma doublingsKey_of_val (d : PhaseDict) (q : ℚ)
    (h : d CurvePhasePhenotypes.PopulationDoublings = some (some (F.val q)))
    (hq : q ≠ 0) :
    doublingsKey (some d) = .ok (F.val q) := by
  simp [doublingsKey, PhaseDict.look, h, F.truthy, hq]

lemma argsortF_132 :
    argsortF [F.val 1, F.val 3, F.val 2] = [0, 2, 1] := by
  decide

/-- Claim C2: on a cell whose Impulse segments have doublings 1, 3 and 2
in that order, MajorImpulseYieldContribution extracts 3 and
FirstMinorImpulseYieldContribution extracts 2: the impulses are argsorted
by doublings ascending and the last and second-to-last picks are
returned. -/
theorem c2_yield_ranking (v : Cell) (d1 d3 d2 : PhaseDict)
    (hc : collectDicts CurvePhases.Impulse v = .ok [some d1, some d3, some d2])
    (h1 : d1 CurvePhasePhenotypes.PopulationDoublings
      = some (some (F.val 1)))
    (h3 : d3 CurvePhasePhenotypes.PopulationDoublings
      = some (some (F.val 3)))
    (h2 : d2 CurvePhasePhenotypes.PopulationDoublings
      = some (some (F.val 2))) :
    filter_cell_custom CurvePhases.Impulse
        CurvePhasePhenotypes.PopulationDoublings 1 (.rank (-1)) v
      = .ok (F.val 3)
    ∧ filter_cell_custom CurvePhases.Impulse
        CurvePhasePhenotypes.PopulationDoublings 2 (.rank (-2)) v
      = .ok (F.val 2) := by
  have k1 := doublingsKey_of_val d1 1 h1 (by norm_num)
  have k3 := doublingsKey_of_val d3 3 h3 (by norm_num)
  have k2 := doublingsKey_of_val d2 2 h2 (by norm_num)
  constructor <;>
    simp [filter_cell_custom, hc, selectPhase, mapE, k1, k3, k2,
      argsortF_132, pyGet, PhaseDict.look, h3, h2, catchTypeToNan]

/-- Outcome predicate for the lag meta-phenotypes: if the plate
computation completes, the cell's value is NaN or at least 0. -/
def lagOutcomeOk : Except PyErr F → Prop
  | .error _ => True
  | .ok y => y.isNan = true ∨ F.leB (F.val 0) y = true

lemma maskNegToNan_ok (x : F) :
    (maskNegToNan x).isNan = true ∨ F.leB (F.val 0) (maskNegToNan x) = true := by
  cases x with
  | nan => left; rfl
  | pinf => right; rfl
  | ninf => left; rfl
  | val q =>
    by_cases h : q < 0
    · left
      simp [maskNegToNan, F.ltB, h, F.isNan]
    · right
      simp [maskNegToNan, F.ltB, h, F.leB, le_of_not_lt h]

/-- Claim C4: InitialLag and TimeBeforeMajorGrowth per cell equal the
crossing time (impulse intercept minus flat intercept) over (flat slope
minus impulse slope) of the two extracted lines, with negative crossing
times masked to NaN, and hence every returned value is NaN or
nonnegative. -/
theorem c4_lag_nonnegative (v : Cell) :
    lagOutcomeOk (initialLag_cell v)
    ∧ lagOutcomeOk (timeBeforeMajorGrowth_cell v)
    ∧ (∀ fs fi pid s ii,
        filter_cell_custom .Flat .LinearModelSlope 1 .first v = .ok fs →
        filter_cell_custom .Flat .LinearModelIntercept 1 .first v = .ok fi →
        getPhaseIdCell [CurvePhases.Flat, CurvePhases.Impulse] v
          = .ok pid →
        filter_cell_on_phase_id .LinearModelSlope v (.idx pid) = .ok s →
        filter_cell_on_phase_id .LinearModelIntercept v (.idx pid)
          = .ok ii →
        initialLag_cell v
          = .ok (maskNegToNan (F.div (F.sub ii fi) (F.sub fs s))))
    ∧ (∀ fs fi pid s ii,
        filter_cell_custom .Flat .LinearModelSlope 1 .first v = .ok fs →
        filter_cell_custom .Flat .LinearModelIntercept 1 .first v = .ok fi →
        major_phase_id v = .ok pid →
        filter_cell_on_phase_id .LinearModelSlope v pid = .ok s →
        filter_cell_on_phase_id .LinearModelIntercept v pid = .ok ii →
        timeBeforeMajorGrowth_cell v
          = .ok (maskNegToNan (F.div (F.sub ii fi) (F.sub fs s)))) := by
  refine ⟨?_, ?_, ?_, ?_⟩
  · unfold initialLag_cell
    repeat' split
    all_goals simp only [lagOutcomeOk]
    all_goals first
      | trivial
      | exact maskNegToNan_ok _
  · unfold timeBeforeMajorGrowth_cell
    repeat' split
    all_goals simp only [lagOutcomeOk]
    all_goals first
      | trivial
      | exact maskNegToNan_ok _
  · intro fs fi pid s ii h1 h2 h3 h4 h5
    unfold initialLag_cell
    simp only [h1, h2, h3, h4, h5]
  · intro fs fi pid s ii h1 h2 h3 h4 h5
    unfold timeBeforeMajorGrowth_cell
    simp only [h1, h2, h3, h4, h5]

/-- A phenotype dict holding a linear model slope and intercept. -/
def lmDict (s i : ℚ) : PhaseDict :=
  fun k =>
    match k with
    | CurvePhasePhenotypes.LinearModelSlope => some (some (F.val s))
    | CurvePhasePhenotypes.LinearModelIntercept => some (some (F.val i))
    | _ => none

/-- A curve with one Flat phase (slope 0, intercept 0) followed by one
Impulse phase (slope 1, intercept -1). -/
def cellFlatImpulse : Cell :=
  Cell.vec
    [Entry.pair CurvePhases.Flat (some (lmDict 0 0)),
     Entry.pair CurvePhases.Impulse (some (lmDict 1 (-1)))]

/-- Witness for claim C4 at the concrete two-phase cell: the crossing
time of the two lines is 1. -/
theorem c4_lag_nonnegative_witness :
    lagOutcomeOk (initialLag_cell cellFlatImpulse)
    ∧ initialLag_cell cellFlatImpulse
      = .ok (maskNegToNan
          (F.div (F.sub (F.val (-1)) (F.val 0))
            (F.sub (F.val 0) (F.val 1)))) :=
  ⟨(c4_lag_nonnegative cellFlatImpulse).1,
   (c4_lag_nonnegative cellFlatImpulse).2.2.1 (F.val 0) (F.val 0) 1
     (F.val 1) (F.val (-1)) (by decide) (by decide) (by decide) (by decide)
     (by decide)⟩

lemma allPairs_mem {es : List Entry} (h : allPairs es = true) {e : Entry}
    (he : e ∈ es) : ∃ t d, e = Entry.pair t d := by
  have := List.all_eq_true.mp h e he
  cases e with
  | pair t d => exact ⟨t, d, rfl⟩
  | empty => simp [Entry.isPair] at this
  | single _ => simp [Entry.isPair] at this
  | triple _ _ => simp [Entry.isPair] at this
  | nonIter => simp [Entry.isPair] at this

lemma transposeFirst_allPairs {es : List Entry} (h : allPairs es = true)
    (hne : es ≠ []) : transposeFirst es = .ok (entriesTypes es) := by
  unfold transposeFirst
  have h1 : es.any Entry.isNonIter = false := by
    rw [List.any_eq_false]
    intro e he
    obtain ⟨t, d, rfl⟩ := allPairs_mem h he
    simp [Entry.isNonIter]
  have h2 : es.any Entry.isEmptyTuple = false := by
    rw [List.any_eq_false]
    intro e he
    obtain ⟨t, d, rfl⟩ := allPairs_mem h he
    simp [Entry.isEmptyTuple]
  simp [h1, h2, hne, entriesTypes]

lemma scan_one_none (ts : List CurvePhases) (idp : Nat)
    (h : firstIdx (fun t => t == CurvePhases.Impulse) ts = none) :
    scanAux [CurvePhases.Flat, CurvePhases.Impulse] ts idp 1 = -1 := by
  induction ts generalizing idp with
  | nil => rfl
  | cons t rest ih =>
    by_cases ht : (t == CurvePhases.Impulse) = true
    · simp [firstIdx, ht] at h
    · simp only [firstIdx, ht, Bool.false_eq_true, if_false,
        Option.map_eq_none'] at h
      simp only [scanAux, List.get?, ht, Bool.false_eq_true, if_false]
      exact ih (idp + 1) h

lemma scan_one_some (ts : List CurvePhases) (idp k : Nat)
    (h : firstIdx (fun t => t == CurvePhases.Impulse) ts = some k) :
    scanAux [CurvePhases.Flat, CurvePhases.Impulse] ts idp 1
      = ((idp + k : Nat) : Int) := by
  induction ts generalizing idp k with
  | nil => simp [firstIdx] at h
  | cons t rest ih =>
    by_cases ht : (t == CurvePhases.Impulse) = true
    · simp only [firstIdx, ht, if_true, Option.some.injEq] at h
      subst h
      simp [scanAux, ht]
    · simp only [firstIdx, ht, Bool.false_eq_true, if_false] at h
      obtain ⟨k0, hk0, rfl⟩ := Option.map_eq_some'.mp h
      simp only [scanAux, List.get?, ht, Bool.false_eq_true, if_false]
      rw [ih (idp + 1) k0 hk0]
      omega

lemma scan_zero_noflat (ts : List CurvePhases) (idp : Nat)
    (h : firstIdx (fun t => t == CurvePhases.Flat) ts = none) :
    scanAux [CurvePhases.Flat, CurvePhases.Impulse] ts idp 0 = -1 := by
  induction ts generalizing idp with
  | nil => rfl
  | cons t rest ih =>
    by_cases ht : (t == CurvePhases.Flat) = true
    · simp [firstIdx, ht] at h
    · simp only [firstIdx, ht, Bool.false_eq_true, if_false,
        Option.map_eq_none'] at h
      simp only [scanAux, List.get?, ht, Bool.false_eq_true, if_false]
      exact ih (idp + 1) h

lemma scan_zero_flat (ts : List CurvePhases) (idp f : Nat)
    (h : firstIdx (fun t => t == CurvePhases.Flat) ts = some f) :
    scanAux [CurvePhases.Flat, CurvePhases.Impulse] ts idp 0
      = scanAux [CurvePhases.Flat, CurvePhases.Impulse] (ts.drop (f + 1))
          (idp + f + 1) 1 := by
  induction ts generalizing idp f with
  | nil => simp [firstIdx] at h
  | cons t rest ih =>
    by_cases ht : (t == CurvePhases.Flat) = true
    · simp only [firstIdx, ht, if_true, Option.some.injEq] at h
      subst h
      simp only [scanAux, List.get?, ht, if_true, List.drop_succ_cons,
        List.drop_zero]
      have hc : ((0 + 1 : Nat) == ([CurvePhases.Flat,
          CurvePhases.Impulse] : List CurvePhases).length) = false := by
        decide
      rw [hc]
      simp only [Bool.false_eq_true, if_false]
    · simp only [firstIdx, ht, Bool.false_eq_true, if_false] at h
      obtain ⟨f0, hf0, rfl⟩ := Option.map_eq_some'.mp h
      simp only [scanAux, List.get?, ht, Bool.false_eq_true, if_false,
        List.drop_succ_cons]
      rw [ih (idp + 1) f0 hf0]
      have : idp + 1 + f0 + 1 = idp + (f0 + 1) + 1 := by omega
      rw [this]

lemma scan_eq_first_impulse_after_first_flat (ts : List CurvePhases) :
    scanAux [CurvePhases.Flat, CurvePhases.Impulse] ts 0 0
      = first_impulse_after_first_flat ts := by
  unfold first_impulse_after_first_flat
  split
  next hF => exact scan_zero_noflat ts 0 hF
  next f hF =>
    rw [scan_zero_flat ts 0 f hF]
    split
    next hI => exact scan_one_none _ _ hI
    next k hI =>
      rw [scan_one_some _ _ k hI]
      omega

lemma F.sub_nan_right (x : F) : F.sub x F.nan = F.nan := by
  cases x <;> rfl

/-- Helper: InitialLag per cell, with all five intermediate plate
computations given, equals the masked crossing-time formula. -/
lemma initialLag_cell_formula (v : Cell) (fs fi : F) (pid : Int) (s ii : F)
    (h1 : filter_cell_custom .Flat .LinearModelSlope 1 .first v = .ok fs)
    (h2 : filter_cell_custom .Flat .LinearModelIntercept 1 .first v
      = .ok fi)
    (h3 : getPhaseIdCell [CurvePhases.Flat, CurvePhases.Impulse] v
      = .ok pid)
    (h4 : filter_cell_on_phase_id .LinearModelSlope v (.idx pid) = .ok s)
    (h5 : filter_cell_on_phase_id .LinearModelIntercept v (.idx pid)
      = .ok ii) :
    initialLag_cell v
      = .ok (maskNegToNan (F.div (F.sub ii fi) (F.sub fs s))) := by
  unfold initialLag_cell
  simp only [h1, h2, h3, h4, h5]

/-- Claim C3 (amended): the Impulse used by InitialLag is the first
Impulse strictly after the first Flat of the phase-type sequence (a
subsequence scan, not an adjacent-transition scan), and when no Flat is
followed by a later Impulse the phase id is -1 and the cell's InitialLag
is NaN. -/
theorem c3_initial_lag_impulse_choice (es : List Entry)
    (hwf : allPairs es = true) (hne : es ≠ []) :
    getPhaseIdCell [CurvePhases.Flat, CurvePhases.Impulse] (.vec es)
      = .ok (first_impulse_after_first_flat (entriesTypes es))
    ∧ (first_impulse_after_first_flat (entriesTypes es) = -1 →
       ∀ fs fi,
         filter_cell_custom .Flat .LinearModelSlope 1 .first (.vec es)
           = .ok fs →
         filter_cell_custom .Flat .LinearModelIntercept 1 .first (.vec es)
           = .ok fi →
         initialLag_cell (.vec es) = .ok F.nan) := by
  have hscan : getPhaseIdCell [CurvePhases.Flat, CurvePhases.Impulse]
      (.vec es)
      = .ok (first_impulse_after_first_flat (entriesTypes es)) := by
    unfold getPhaseIdCell
    dsimp only
    rw [transposeFirst_allPairs hwf hne]
    simp only [catchTypeToNeg1]
    rw [scan_eq_first_impulse_after_first_flat]
  refine ⟨hscan, ?_⟩
  intro hneg fs fi h1 h2
  rw [hneg] at hscan
  have hval : filter_cell_on_phase_id .LinearModelSlope (.vec es)
      (.idx (-1)) = .ok F.nan := by
    simp [filter_cell_on_phase_id]
  have hval2 : filter_cell_on_phase_id .LinearModelIntercept (.vec es)
      (.idx (-1)) = .ok F.nan := by
    simp [filter_cell_on_phase_id]
  rw [initialLag_cell_formula (.vec es) fs fi (-1) F.nan F.nan h1 h2 hscan
    hval hval2]
  rw [F.sub_nan_right fs]
  simp [F.sub, F.div, maskNegToNan, F.ltB]

/-- A curve with a Flat phase, a GrowthAcceleration phase and an Impulse
phase: no adjacent Flat-then-Impulse transition exists. -/
def cellFlatAccImpulse : Cell :=
  Cell.vec
    [Entry.pair CurvePhases.Flat (some (lmDict 0 0)),
     Entry.pair CurvePhases.GrowthAcceleration none,
     Entry.pair CurvePhases.Impulse (some (lmDict 1 (-1)))]

/-- Counterexample to claim C3 as stated: on the Flat, Acceleration,
Impulse curve there is no adjacent Flat-then-Impulse pair, yet InitialLag
is 1 (not NaN): the scan accepts the Impulse at index 2 although it does
not immediately follow the Flat. -/
theorem c3_counterexample :
    spec_adjacent_flat_impulse_id
      (entriesTypes
        [Entry.pair CurvePhases.Flat (some (lmDict 0 0)),
         Entry.pair CurvePhases.GrowthAcceleration none,
         Entry.pair CurvePhases.Impulse (some (lmDict 1 (-1)))]) = -1
    ∧ initialLag_cell cellFlatAccImpulse = .ok (F.val 1) := by
  constructor
  · decide
  · rw [initialLag_cell_formula cellFlatAccImpulse (F.val 0) (F.val 0) 2
      (F.val 1) (F.val (-1)) (by decide) (by decide) (by decide)
      (by decide) (by decide)]
    simp only [F.sub, F.div, maskNegToNan, F.ltB]
    norm_num

/-- Witness for claim C3 (amended) at the same concrete curve: the scan
returns index 2, the Impulse after the non-adjacent Flat. -/
theorem c3_initial_lag_impulse_choice_witness :
    getPhaseIdCell [CurvePhases.Flat, CurvePhases.Impulse]
      cellFlatAccImpulse = .ok 2 := by
  have h := (c3_initial_lag_impulse_choice
    [Entry.pair CurvePhases.Flat (some (lmDict 0 0)),
     Entry.pair CurvePhases.GrowthAcceleration none,
     Entry.pair CurvePhases.Impulse (some (lmDict 1 (-1)))]
    (by decide) (by simp)).1
  unfold cellFlatAccImpulse
  rw [h]
  decide

/-- A curve of three Impulse phases with doublings 1, 3 and 2. -/
def cellThreeImpulses : Cell :=
  Cell.vec
    [Entry.pair CurvePhases.Impulse (some (pdDict (F.val 1))),
     Entry.pair CurvePhases.Impulse (some (pdDict (F.val 3))),
     Entry.pair CurvePhases.Impulse (some (pdDict (F.val 2)))]

/-- Witness for claim C2 at the concrete three-impulse cell. -/
theorem c2_yield_ranking_witness :
    filter_cell_custom CurvePhases.Impulse
        CurvePhasePhenotypes.PopulationDoublings 1 (.rank (-1))
        cellThreeImpulses
      = .ok (F.val 3)
    ∧ filter_cell_custom CurvePhases.Impulse
        CurvePhasePhenotypes.PopulationDoublings 2 (.rank (-2))
        cellThreeImpulses
      = .ok (F.val 2) :=
  c2_yield_ranking cellThreeImpulses (pdDict (F.val 1)) (pdDict (F.val 3))
    (pdDict (F.val 2)) rfl rfl rfl rfl

/-- Claim C5: the flank-asymmetry computation returns +inf, raising no
exception, whenever the major-impulse index is NaN, whenever the indexed
entry has no phenotype dict, and whenever its phase label is not Impulse;
on a well-formed Impulse index it returns the right flank angle divided
by the left flank angle as computed by flank_angle. -/
theorem c5_flank_relation (at2 : F → F → F) (piF : F) (es : List Entry) :
    py_get_flanking_angle_relation at2 piF es .nanId = .ok F.pinf
    ∧ (∀ i : Int, ∀ t : CurvePhases,
        pyGet es i = .ok (Entry.pair t none) →
        py_get_flanking_angle_relation at2 piF es (.idx i) = .ok F.pinf)
    ∧ (∀ i : Int, ∀ t : CurvePhases, ∀ d : PhaseDict,
        pyGet es i = .ok (Entry.pair t (some d)) →
        t ≠ CurvePhases.Impulse →
        py_get_flanking_angle_relation at2 piF es (.idx i) = .ok F.pinf)
    ∧ (∀ i : Int, ∀ d : PhaseDict, ∀ eL eR : Entry, ∀ x y : F,
        pyGet es i = .ok (Entry.pair CurvePhases.Impulse (some d)) →
        0 < i →
        pyGet es (i - 1) = .ok eL →
        i < (es.length : Int) - 1 →
        pyGet es (i + 1) = .ok eR →
        flank_angle at2 piF d (some eL) = .ok (some x) →
        flank_angle at2 piF d (some eR) = .ok (some y) →
        py_get_flanking_angle_relation at2 piF es (.idx i)
          = .ok (F.div y x)) := by
  refine ⟨rfl, ?_, ?_, ?_⟩
  · intro i t hget
    unfold py_get_flanking_angle_relation
    simp only [hget, Entry.elem1]
  · intro i t d hget hne
    unfold py_get_flanking_angle_relation
    simp only [hget, Entry.elem1, Entry.elem0]
    rw [if_neg (by simpa using hne)]
  · intro i d eL eR x y hget hpos hL hlen hR hfL hfR
    unfold py_get_flanking_angle_relation
    simp only [hget, Entry.elem1, Entry.elem0, beq_self_eq_true, if_true,
      if_pos hpos, hL, if_pos hlen, hR, hfL, hfR]

/-- A phenotype dict holding only an AsymptoteAngle. -/
def angleDict (a : ℚ) : PhaseDict :=
  fun k =>
    match k with
    | CurvePhasePhenotypes.AsymptoteAngle => some (some (F.val a))
    | _ => none

/-- A curve with an Acceleration flank (angle 3/10), an Impulse and a
Retardation flank (angle 3/5). -/
def cellFlankedImpulse : Cell :=
  Cell.vec
    [Entry.pair CurvePhases.GrowthAcceleration (some (angleDict (3 / 10))),
     Entry.pair CurvePhases.Impulse (some (lmDict 1 0)),
     Entry.pair CurvePhases.GrowthRetardation (some (angleDict (3 / 5)))]

/-- Witness for claim C5 at the flanked-impulse curve: both flanks are
non-linear, so the result is the ratio of the stored asymptote angles. -/
theorem c5_flank_relation_witness :
    py_get_flanking_angle_relation (fun _ _ => F.val 0) (F.val 3)
        [Entry.pair CurvePhases.GrowthAcceleration
           (some (angleDict (3 / 10))),
         Entry.pair CurvePhases.Impulse (some (lmDict 1 0)),
         Entry.pair CurvePhases.GrowthRetardation
           (some (angleDict (3 / 5)))]
        (.idx 1)
      = .ok (F.div (F.val (3 / 5)) (F.val (3 / 10))) :=
  (c5_flank_relation (fun _ _ => F.val 0) (F.val 3)
    [Entry.pair CurvePhases.GrowthAcceleration (some (angleDict (3 / 10))),
     Entry.pair CurvePhases.Impulse (some (lmDict 1 0)),
     Entry.pair CurvePhases.GrowthRetardation
       (some (angleDict (3 / 5)))]).2.2.2
    1 (lmDict 1 0)
    (Entry.pair CurvePhases.GrowthAcceleration (some (angleDict (3 / 10))))
    (Entry.pair CurvePhases.GrowthRetardation (some (angleDict (3 / 5))))
    (F.val (3 / 10)) (F.val (3 / 5))
    rfl (by decide) rfl (by decide) rfl rfl rfl

lemma alignment_passes_succ (body : Nat → List PhaseSlot → List PhaseSlot)
    (c m : Nat) (init : List PhaseSlot) :
    alignment_passes body c (m + 1) init
      = post_pass_filter m c (body m (alignment_passes body c m init)) := by
  unfold alignment_passes
  rw [List.range_succ, List.foldl_append]
  rfl

/-- Claim C7: the refinement loop of the cross-curve alignment runs
exactly 10 passes, and after each pass every surviving slot's membership
count strictly exceeds the threshold (the integer part of 5 percent of
the eligible-curve count on passes 1 to 9, zero on the final pass) and
the slot list is sorted by non-decreasing anchor. -/
theorem c7_alignment_pass_invariant
    (body : Nat → List PhaseSlot → List PhaseSlot)
    (curveCount : Nat) (init : List PhaseSlot) (k : Nat) (hk : k < 10) :
    alignment_refinement body curveCount init
      = alignment_passes body curveCount 10 init
    ∧ (∀ s ∈ alignment_passes body curveCount (k + 1) init,
        slotThreshold k curveCount < s.members.length)
    ∧ List.Sorted slotLe (alignment_passes body curveCount (k + 1) init)
    ∧ slotThreshold 9 curveCount = 0 := by
  refine ⟨rfl, ?_, ?_, by simp [slotThreshold]⟩
  · intro s hs
    rw [alignment_passes_succ] at hs
    unfold post_pass_filter at hs
    have hmem := List.mem_filter.mp hs
    simpa using hmem.2
  · rw [alignment_passes_succ]
    unfold post_pass_filter
    apply List.Pairwise.filter
    haveI : IsTotal PhaseSlot slotLe :=
      ⟨fun a b => le_total a.anchor b.anchor⟩
    haveI : IsTrans PhaseSlot slotLe :=
      ⟨fun a b c h1 h2 => le_trans h1 h2⟩
    exact List.sorted_insertionSort slotLe _

/-- Witness for claim C7 after the final pass of a small concrete run. -/
theorem c7_alignment_pass_invariant_witness :
    (∀ s ∈ alignment_passes
        (fun _ _ => [⟨CurvePhases.Impulse, [(0, 0)], 0⟩]) 4 10 [],
      slotThreshold 9 4 < s.members.length)
    ∧ slotThreshold 9 4 = 0 :=
  ⟨(c7_alignment_pass_invariant
      (fun _ _ => [⟨CurvePhases.Impulse, [(0, 0)], 0⟩]) 4 [] 9
      (by norm_num)).2.1,
   (c7_alignment_pass_invariant
      (fun _ _ => [⟨CurvePhases.Impulse, [(0, 0)], 0⟩]) 4 [] 9
      (by norm_num)).2.2.2⟩

/-- Per-cell Modalities (_np_ma_impulse_counter): negative counter
values become NaN. -/
def modalities_cell (v : Cell) : Except PyErr F :=
  match py_impulse_counter v with
  | .error e => .error e
  | .ok c => .ok (if c < 0 then F.nan else F.val (c : ℚ))

lemma mapE_unpack_nonIter (es : List Entry)
    (hshape : ∀ e ∈ es, e = Entry.nonIter ∨ e.isPair = true)
    (hn : Entry.nonIter ∈ es) :
    mapE Entry.unpack2 es = .error .typeError := by
  induction es with
  | nil => cases hn
  | cons e rest ih =>
    rcases hshape e (List.mem_cons_self e _) with rfl | hp
    · rfl
    · obtain ⟨t, d, rfl⟩ : ∃ t d, e = Entry.pair t d := by
        cases e with
        | pair t d => exact ⟨t, d, rfl⟩
        | empty => simp [Entry.isPair] at hp
        | single _ => simp [Entry.isPair] at hp
        | triple _ _ => simp [Entry.isPair] at hp
        | nonIter => simp [Entry.isPair] at hp
      have hn2 : Entry.nonIter ∈ rest := by
        rcases List.mem_cons.mp hn with h | h
        · cases h
        · exact h
      have := ih (fun x hx => hshape x (List.mem_cons_of_mem _ hx)) hn2
      simp [mapE, Entry.unpack2, this]

lemma countImpulsesE_nonIter (es : List Entry)
    (hshape : ∀ e ∈ es, e = Entry.nonIter ∨ e.isPair = true)
    (hn : Entry.nonIter ∈ es) :
    countImpulsesE es = .error .typeError := by
  induction es with
  | nil => cases hn
  | cons e rest ih =>
    rcases hshape e (List.mem_cons_self e _) with rfl | hp
    · rfl
    · obtain ⟨t, d, rfl⟩ : ∃ t d, e = Entry.pair t d := by
        cases e with
        | pair t d => exact ⟨t, d, rfl⟩
        | empty => simp [Entry.isPair] at hp
        | single _ => simp [Entry.isPair] at hp
        | triple _ _ => simp [Entry.isPair] at hp
        | nonIter => simp [Entry.isPair] at hp
      have hn2 : Entry.nonIter ∈ rest := by
        rcases List.mem_cons.mp hn with h | h
        · cases h
        · exact h
      have := ih (fun x hx => hshape x (List.mem_cons_of_mem _ hx)) hn2
      simp [countImpulsesE, Entry.elem0, this]

/-- Claim C8 (amended): a missing (None) cell and a cell containing a
non-iterable entry degrade to NaN in both the custom filter and the
impulse counter, without raising, and the vectorized dispatch is an
independent per-cell map; a wrong-arity tuple entry however raises an
uncaught ValueError (see the counterexample). -/
theorem c8_malformed_cells (phase : CurvePhases)
    (measure : CurvePhasePhenotypes) (need : Nat) (sel : Selector)
    (es : List Entry)
    (hshape : ∀ e ∈ es, e = Entry.nonIter ∨ e.isPair = true)
    (hn : Entry.nonIter ∈ es) :
    filter_cell_custom phase measure need sel Cell.pyNone = .ok F.nan
    ∧ modalities_cell Cell.pyNone = .ok F.nan
    ∧ filter_cell_custom phase measure need sel (.vec es) = .ok F.nan
    ∧ modalities_cell (.vec es) = .ok F.nan
    ∧ (∀ cells : List Cell, ∀ j : Nat,
        (cells.map (filter_cell_custom phase measure need sel))[j]?
          = (cells[j]?).map
              (filter_cell_custom phase measure need sel)) := by
  refine ⟨rfl, rfl, ?_, ?_, ?_⟩
  · unfold filter_cell_custom collectDicts cellPairs
    dsimp only
    rw [mapE_unpack_nonIter es hshape hn]
    rfl
  · unfold modalities_cell py_impulse_counter
    dsimp only
    rw [countImpulsesE_nonIter es hshape hn]
    rfl
  · intro cells j
    exact List.getElem?_map _ _ _

/-- Counterexample to claim C8 as stated: a wrong-arity (3-tuple) entry
raises ValueError during unpacking, which the custom filter's TypeError
handler does not catch: the cell does not degrade to NaN, the plate
computation aborts. -/
theorem c8_counterexample :
    filter_cell_custom CurvePhases.Impulse
        CurvePhasePhenotypes.PopulationDoublings 1 (.rank (-1))
        (Cell.vec [Entry.triple CurvePhases.Impulse none])
      = .error .valueError := by
  rfl

lemma argsortF_perm (ks : List F) :
    (argsortF ks).Perm (List.range ks.length) :=
  List.perm_insertionSort (argLe ks) (List.range ks.length)

lemma argsortF_sorted (ks : List F) :
    List.Sorted (argLe ks) (argsortF ks) := by
  haveI : IsTotal Nat (argLe ks) := ⟨fun a b => le_total _ _⟩
  haveI : IsTrans Nat (argLe ks) :=
    ⟨fun a b c h1 h2 => le_trans h1 h2⟩
  exact List.sorted_insertionSort (argLe ks) (List.range ks.length)

lemma argsortF_length (ks : List F) :
    (argsortF ks).length = ks.length := by
  rw [(argsortF_perm ks).length_eq, List.length_range]

lemma argsortF_mem {ks : List F} {i : Nat} (h : i ∈ argsortF ks) :
    i < ks.length := by
  have := (argsortF_perm ks).mem_iff.mp h
  simpa using this

lemma argsortF_mem_of_lt {ks : List F} {i : Nat} (h : i < ks.length) :
    i ∈ argsortF ks := by
  apply (argsortF_perm ks).mem_iff.mpr
  simpa using h

lemma pyGet_neg_one (l : List α) (h : l ≠ []) :
    pyGet l (-1) = .ok (l.getLast h) := by
  have hlen : 0 < l.length := List.length_pos_of_ne_nil h
  have hc : ((-1 : Int) < 0) := by norm_num
  have hcond : (0 : Int) ≤ (l.length : Int) + (-1)
      ∧ ((l.length : Int) + (-1)).toNat < l.length := by
    constructor <;> omega
  simp only [pyGet, hc, if_true]
  rw [dif_pos hcond]
  congr 1
  rw [List.getLast_eq_get]
  congr 1
  apply Fin.ext
  show ((l.length : Int) + (-1)).toNat = l.length - 1
  omega

lemma sorted_rel_getLast {r : Nat → Nat → Prop} {l : List Nat}
    (hs : List.Sorted r l) (hne : l ≠ []) {a : Nat} (ha : a ∈ l) :
    r a (l.getLast hne) ∨ a = l.getLast hne := by
  obtain ⟨p, hp⟩ := List.mem_iff_get.mp ha
  rw [List.getLast_eq_get]
  rcases lt_or_le p.1 (l.length - 1) with hlt | hge
  · left
    rw [← hp]
    exact hs.rel_get_of_lt (Fin.lt_def.mpr (by simpa using hlt))
  · right
    rw [← hp]
    congr 1
    apply Fin.ext
    show p.1 = l.length - 1
    have := p.2
    omega

lemma mapE_ok_length {f : α → Except PyErr β} {l : List α} {bs : List β}
    (h : mapE f l = .ok bs) : bs.length = l.length := by
  induction l generalizing bs with
  | nil =>
    simp only [mapE] at h
    cases h
    rfl
  | cons a rest ih =>
    simp only [mapE] at h
    cases hfa : f a with
    | error e => rw [hfa] at h; cases h
    | ok b =>
      rw [hfa] at h
      cases hrest : mapE f rest with
      | error e => rw [hrest] at h; cases h
      | ok bs0 =>
        rw [hrest] at h
        cases h
        simp [ih hrest]

lemma mapE_ok_getD {f : α → Except PyErr β} {l : List α} {bs : List β}
    (h : mapE f l = .ok bs) (d0 : α) (b0 : β) :
    ∀ j, j < l.length → f (l.getD j d0) = .ok (bs.getD j b0) := by
  induction l generalizing bs with
  | nil => intro j hj; cases hj
  | cons a rest ih =>
    simp only [mapE] at h
    cases hfa : f a with
    | error e => rw [hfa] at h; cases h
    | ok b =>
      rw [hfa] at h
      cases hrest : mapE f rest with
      | error e => rw [hrest] at h; cases h
      | ok bs0 =>
        rw [hrest] at h
        cases h
        intro j hj
        cases j with
        | zero => simpa using hfa
        | succ j0 =>
          simp only [List.getD_cons_succ]
          exact ih hrest j0 (by simpa using hj)

lemma tier_pos_of_ne_ninf {x : F} (h : x ≠ F.ninf) : 0 < x.tier := by
  cases x with
  | nan => exact Nat.succ_pos _
  | pinf => exact Nat.succ_pos _
  | ninf => exact absurd rfl h
  | val q => exact Nat.succ_pos _

/-- Claim C10 (amended, for the argsort selector used by the yield and
doubling-time rankings and by InitialLagAlternativeModel): the selector
with index -1 picks an element whose ranking key is not -inf whenever one
exists, and a key other than -inf means the stored PopulationDoublings is
present, not Python None and not 0. The plate-wide locator
_py_get_major_impulse_for_plate violates the claim (see the
counterexample). -/
theorem c10_rank_selector_avoids_ninf (ds : List (Option PhaseDict))
    (ks : List F) (hk : mapE doublingsKey ds = .ok ks) (hne : ds ≠ [])
    (hex : ∃ i, i < ks.length ∧ ks.getD i F.nan ≠ F.ninf) :
    (∃ j, j < ds.length
      ∧ selectPhase (.rank (-1)) ds = pyGet ds (j : Int)
      ∧ doublingsKey (ds.getD j none) = .ok (ks.getD j F.nan)
      ∧ ks.getD j F.nan ≠ F.ninf)
    ∧ (∀ od x, doublingsKey od = .ok x → x ≠ F.ninf →
        ∃ d y, od = some d
          ∧ d CurvePhasePhenotypes.PopulationDoublings = some (some y)
          ∧ y ≠ F.val 0 ∧ F.truthy y = true) := by
  have hlen : ks.length = ds.length := mapE_ok_length hk
  have hksne : ks ≠ [] := by
    intro hnil
    apply hne
    have := hlen
    rw [hnil] at this
    cases ds with
    | nil => rfl
    | cons a l => simp at this
  have hargne : argsortF ks ≠ [] := by
    intro hnil
    have := argsortF_length ks
    rw [hnil] at this
    have : ks.length = 0 := by simpa using this.symm
    exact hksne (List.length_eq_zero.mp this)
  have hjmem : (argsortF ks).getLast hargne ∈ argsortF ks :=
    List.getLast_mem hargne
  have hjlt : (argsortF ks).getLast hargne < ks.length :=
    argsortF_mem hjmem
  have hjne : ks.getD ((argsortF ks).getLast hargne) F.nan ≠ F.ninf := by
    obtain ⟨i, hi, hine⟩ := hex
    have himem : i ∈ argsortF ks := argsortF_mem_of_lt hi
    rcases sorted_rel_getLast (argsortF_sorted ks) hargne himem with
      hrel | heq
    · intro hjninf
      have hle : argKey ks i
          ≤ argKey ks ((argsortF ks).getLast hargne) := hrel
      unfold argKey at hle
      rw [Prod.Lex.le_iff] at hle
      have htj : F.tier (ks.getD ((argsortF ks).getLast hargne) F.nan)
          = 0 := by
        rw [hjninf]
        rfl
      have hti : 0 < F.tier (ks.getD i F.nan) :=
        tier_pos_of_ne_ninf hine
      rcases hle with hlt | ⟨heq2, _⟩
      · simp only [htj] at hlt
        omega
      · simp only [htj] at heq2
        omega
    · rw [← heq]
      exact hine
  refine ⟨⟨(argsortF ks).getLast hargne, by omega, ?_, ?_, hjne⟩, ?_⟩
  · unfold selectPhase
    dsimp only
    rw [hk]
    dsimp only
    rw [pyGet_neg_one (argsortF ks) hargne]
  · exact mapE_ok_getD hk none F.nan ((argsortF ks).getLast hargne)
      (by omega)
  · intro od x hkey hxne
    cases od with
    | none =>
      simp only [doublingsKey] at hkey
      cases hkey
    | some d =>
      simp only [doublingsKey] at hkey
      cases hlook : d.look CurvePhasePhenotypes.PopulationDoublings with
      | error e => rw [hlook] at hkey; cases hkey
      | ok v =>
        rw [hlook] at hkey
        cases v with
        | none =>
          simp only at hkey
          cases hkey
          exact absurd rfl hxne
        | some y =>
          simp only at hkey
          by_cases hty : F.truthy y = true
          · rw [if_pos hty] at hkey
            cases hkey
            refine ⟨d, x, rfl, ?_, ?_, hty⟩
            · unfold PhaseDict.look at hlook
              cases hd : d CurvePhasePhenotypes.PopulationDoublings with
              | none => rw [hd] at hlook; cases hlook
              | some w => rw [hd] at hlook; cases hlook; rfl
            · intro hx0
              rw [hx0] at hty
              simp [F.truthy] at hty
          · rw [if_neg hty] at hkey
            cases hkey
            exact absurd rfl hxne

/-- The curve showing the plate-wide locator can select a zero-doublings
impulse: impulses of doublings 5 and 0 followed by flats of doublings 3
and 4. -/
def cellZeroDoublingsMajor : Cell :=
  Cell.vec
    [Entry.pair CurvePhases.Impulse (some (pdDict (F.val 5))),
     Entry.pair CurvePhases.Impulse (some (pdDict (F.val 0))),
     Entry.pair CurvePhases.Flat (some (pdDict (F.val 3))),
     Entry.pair CurvePhases.Flat (some (pdDict (F.val 4)))]

/-- Counterexample to claim C10 as stated: on the curve above the
plate-wide major-impulse locator returns index 1, whose Impulse has
PopulationDoublings 0 (ranking key -inf), although the Impulse at index 0
has the nonzero doublings 5. -/
theorem c10_counterexample :
    py_get_major_impulse cellZeroDoublingsMajor = .ok 1
    ∧ doublingsKeyMajor (some (pdDict (F.val 0))) = .ok F.ninf
    ∧ doublingsKeyMajor (some (pdDict (F.val 5))) = .ok (F.val 5) := by
  refine ⟨?_, ?_, ?_⟩ <;> decide

/-- Witness for claim C10 (amended) at a concrete two-impulse list with
doublings 0 and 5. -/
theorem c10_rank_selector_avoids_ninf_witness :
    (∃ j, j < ([some (pdDict (F.val 0)),
        some (pdDict (F.val 5))] : List (Option PhaseDict)).length
      ∧ selectPhase (.rank (-1))
          [some (pdDict (F.val 0)), some (pdDict (F.val 5))]
        = pyGet [some (pdDict (F.val 0)), some (pdDict (F.val 5))]
            (j : Int)
      ∧ doublingsKey
          (([some (pdDict (F.val 0)),
             some (pdDict (F.val 5))] : List (Option PhaseDict)).getD j
            none)
        = .ok (([F.ninf, F.val 5] : List F).getD j F.nan)
      ∧ ([F.ninf, F.val 5] : List F).getD j F.nan ≠ F.ninf)
    ∧ (∀ od x, doublingsKey od = .ok x → x ≠ F.ninf →
        ∃ d y, od = some d
          ∧ d CurvePhasePhenotypes.PopulationDoublings = some (some y)
          ∧ y ≠ F.val 0 ∧ F.truthy y = true) :=
  c10_rank_selector_avoids_ninf
    [some (pdDict (F.val 0)), some (pdDict (F.val 5))]
    [F.ninf, F.val 5] rfl (by simp)
    ⟨1, by norm_num, by decide⟩

/-- Witness for claim C8 (amended) at a cell holding a well-formed pair
followed by a non-iterable entry. -/
theorem c8_malformed_cells_witness :
    filter_cell_custom CurvePhases.Impulse
        CurvePhasePhenotypes.PopulationDoublings 1 (.rank (-1))
        Cell.pyNone
      = .ok F.nan
    ∧ filter_cell_custom CurvePhases.Impulse
        CurvePhasePhenotypes.PopulationDoublings 1 (.rank (-1))
        (.vec [Entry.pair CurvePhases.Flat none, Entry.nonIter])
      = .ok F.nan
    ∧ modalities_cell
        (.vec [Entry.pair CurvePhases.Flat none, Entry.nonIter])
      = .ok F.nan := by
  have hshape : ∀ e ∈ ([Entry.pair CurvePhases.Flat none,
      Entry.nonIter] : List Entry),
      e = Entry.nonIter ∨ e.isPair = true := by
    intro e he
    rcases List.mem_cons.mp he with rfl | he2
    · right; rfl
    · rcases List.mem_cons.mp he2 with rfl | he3
      · left; rfl
      · cases he3
  have hn : Entry.nonIter ∈ ([Entry.pair CurvePhases.Flat none,
      Entry.nonIter] : List Entry) :=
    List.mem_cons_of_mem _ (List.mem_cons_self _ _)
  have h := c8_malformed_cells CurvePhases.Impulse
    CurvePhasePhenotypes.PopulationDoublings 1 (.rank (-1))
    [Entry.pair CurvePhases.Flat none, Entry.nonIter] hshape hn
  exact ⟨h.1, h.2.2.1, h.2.2.2.1⟩

/-- The index list _phase_finder produces, starting enumeration at i. -/
def idxFrom (p : CurvePhases → Bool) (i : Nat) :
    List CurvePhases → List Nat
  | [] => []
  | t :: rest =>
    if p t then i :: idxFrom p (i + 1) rest else idxFrom p (i + 1) rest

lemma phaseFinderAux_allPairs (phase : CurvePhases) {es : List Entry}
    (h : allPairs es = true) (i : Nat) :
    phaseFinderAux phase i es
      = .ok (idxFrom (fun t => t == phase) i (entriesTypes es)) := by
  induction es generalizing i with
  | nil => rfl
  | cons e rest ih =>
    obtain ⟨t, d, rfl⟩ := allPairs_mem h (List.mem_cons_self e _)
    have hrest : allPairs rest = true := by
      rw [allPairs, List.all_eq_true] at h ⊢
      exact fun x hx => h x (List.mem_cons_of_mem _ hx)
    simp only [phaseFinderAux, Entry.unpack2, ih hrest (i + 1),
      entriesTypes, List.map_cons, idxFrom, Entry.firstType]

lemma phase_finder_allPairs (phase : CurvePhases) {es : List Entry}
    (h : allPairs es = true) :
    phase_finder phase (.vec es)
      = .ok (idxFrom (fun t => t == phase) 0 (entriesTypes es)) := by
  unfold phase_finder
  dsimp only
  rw [phaseFinderAux_allPairs phase h 0]

lemma idxFrom_eq_nil_of_firstIdx_none {p : CurvePhases → Bool}
    {ts : List CurvePhases} (h : firstIdx p ts = none) (i : Nat) :
    idxFrom p i ts = [] := by
  induction ts generalizing i with
  | nil => rfl
  | cons t rest ih =>
    by_cases hp : p t = true
    · simp [firstIdx, hp] at h
    · simp only [firstIdx, hp, Bool.false_eq_true, if_false,
        Option.map_eq_none'] at h
      simp only [idxFrom, hp, Bool.false_eq_true, if_false]
      exact ih h (i + 1)

lemma lastIdx_none_iff_firstIdx_none {p : CurvePhases → Bool}
    {ts : List CurvePhases} :
    lastIdx p ts = none ↔ firstIdx p ts = none := by
  induction ts with
  | nil => simp [lastIdx, firstIdx]
  | cons t rest ih =>
    by_cases hp : p t = true
    · constructor
      · intro h
        simp only [lastIdx] at h
        cases hl : lastIdx p rest with
        | some k => rw [hl] at h; cases h
        | none => rw [hl, if_pos hp] at h; cases h
      · intro h
        simp [firstIdx, hp] at h
    · simp only [lastIdx, firstIdx, hp, Bool.false_eq_true, if_false,
        Option.map_eq_none']
      cases hl : lastIdx p rest with
      | some k => simp [← ih, hl]
      | none => simp [← ih, hl]

lemma idxFrom_head? (p : CurvePhases → Bool) (ts : List CurvePhases)
    (i : Nat) :
    (idxFrom p i ts).head? = (firstIdx p ts).map (fun k => i + k) := by
  induction ts generalizing i with
  | nil => rfl
  | cons t rest ih =>
    by_cases hp : p t = true
    · simp [idxFrom, firstIdx, hp]
    · simp only [idxFrom, firstIdx, hp, Bool.false_eq_true, if_false]
      rw [ih (i + 1)]
      cases firstIdx p rest with
      | none => rfl
      | some k =>
        simp only [Option.map_some']
        congr 1
        omega

lemma idxFrom_getLast? (p : CurvePhases → Bool) (ts : List CurvePhases)
    (i : Nat) :
    (idxFrom p i ts).getLast? = (lastIdx p ts).map (fun k => i + k) := by
  induction ts generalizing i with
  | nil => rfl
  | cons t rest ih =>
    cases hl : lastIdx p rest with
    | some k =>
      have h2 := ih (i + 1)
      rw [hl] at h2
      simp only [Option.map_some'] at h2
      have hne : idxFrom p (i + 1) rest ≠ [] := by
        intro hnil
        rw [hnil] at h2
        cases h2
      simp only [lastIdx, hl, Option.map_some']
      by_cases hp : p t = true
      · rw [idxFrom, if_pos hp]
        cases hidx : idxFrom p (i + 1) rest with
        | nil => exact absurd hidx hne
        | cons b l2 =>
          rw [List.getLast?_cons_cons]
          rw [← hidx, h2]
          congr 1
          omega
      · rw [idxFrom, if_neg (by simpa using hp)]
        rw [h2]
        congr 1
        omega
    | none =>
      have hfn : firstIdx p rest = none :=
        lastIdx_none_iff_firstIdx_none.mp hl
      have hnil : idxFrom p (i + 1) rest = [] :=
        idxFrom_eq_nil_of_firstIdx_none hfn (i + 1)
      simp only [lastIdx, hl]
      by_cases hp : p t = true
      · rw [idxFrom, if_pos hp, hnil, if_pos hp]
        simp
      · rw [idxFrom, if_neg (by simpa using hp), hnil,
          if_neg (by simpa using hp)]
        rfl

lemma firstIdx_lt_length {p : CurvePhases → Bool} {ts : List CurvePhases}
    {f : Nat} (h : firstIdx p ts = some f) : f < ts.length := by
  induction ts generalizing f with
  | nil => cases h
  | cons t rest ih =>
    by_cases hp : p t = true
    · simp only [firstIdx, hp, if_true, Option.some.injEq] at h
      subst h
      simp
    · simp only [firstIdx, hp, Bool.false_eq_true, if_false] at h
      obtain ⟨f0, hf0, rfl⟩ := Option.map_eq_some'.mp h
      have := ih hf0
      simp only [List.length_cons]
      omega

lemma firstIdx_getD {p : CurvePhases → Bool} {ts : List CurvePhases}
    {f : Nat} (h : firstIdx p ts = some f) :
    p (ts.getD f CurvePhases.Undetermined) = true := by
  induction ts generalizing f with
  | nil => cases h
  | cons t rest ih =>
    by_cases hp : p t = true
    · simp only [firstIdx, hp, if_true, Option.some.injEq] at h
      subst h
      simpa using hp
    · simp only [firstIdx, hp, Bool.false_eq_true, if_false] at h
      obtain ⟨f0, hf0, rfl⟩ := Option.map_eq_some'.mp h
      simpa using ih hf0

lemma countImpulsesE_allPairs {es : List Entry}
    (h : allPairs es = true) :
    countImpulsesE es
      = .ok ((entriesTypes es).countP
          (fun t => t == CurvePhases.Impulse)) := by
  induction es with
  | nil => rfl
  | cons e rest ih =>
    obtain ⟨t, d, rfl⟩ := allPairs_mem h (List.mem_cons_self e _)
    have hrest : allPairs rest = true := by
      rw [allPairs, List.all_eq_true] at h ⊢
      exact fun x hx => h x (List.mem_cons_of_mem _ hx)
    simp only [countImpulsesE, Entry.elem0, ih hrest, entriesTypes,
      List.map_cons, Entry.firstType, List.countP_cons]
    by_cases hp : (t == CurvePhases.Impulse) = true
    · simp [hp]
    · simp [hp]

lemma allPairs_slice {es : List Entry} (h : allPairs es = true)
    (a n : Nat) : allPairs ((es.drop a).take n) = true := by
  rw [allPairs, List.all_eq_true] at h ⊢
  intro e he
  exact h e (List.mem_of_mem_drop (List.mem_of_mem_take he))

lemma entriesTypes_slice (es : List Entry) (a n : Nat) :
    entriesTypes ((es.drop a).take n)
      = ((entriesTypes es).drop a).take n := by
  simp [entriesTypes, List.map_take, List.map_drop]

lemma countP_slice_exclude_first (ts : List CurvePhases) (a r : Nat)
    (ha : a < ts.length)
    (hne : (ts.getD a CurvePhases.Undetermined
      == CurvePhases.Impulse) = false) :
    ((ts.drop a).take (r - a)).countP (fun t => t == CurvePhases.Impulse)
      = ((ts.drop (a + 1)).take (r - (a + 1))).countP
          (fun t => t == CurvePhases.Impulse) := by
  rcases le_or_lt r a with hra | har
  · have h1 : r - a = 0 := by omega
    have h2 : r - (a + 1) = 0 := by omega
    simp [h1, h2]
  · have hdrop : ts.drop a
        = ts.getD a CurvePhases.Undetermined :: ts.drop (a + 1) := by
      rw [List.drop_eq_getElem_cons ha]
      rw [List.getD_eq_getElem ts CurvePhases.Undetermined ha]
    rw [hdrop]
    have hsub : r - a = (r - (a + 1)) + 1 := by omega
    rw [hsub, List.take_succ_cons, List.countP_cons]
    simp only [hne, Bool.false_eq_true, if_false, Nat.add_zero]

/-- Claim C6: for a well-formed cell, ModalitiesAlternativeModel is NaN
whenever the PhaseVector has no Acceleration or no Retardation segment,
and otherwise counts the Impulse segments at indices strictly between the
first Acceleration and the last Retardation. -/
theorem c6_modalities_alternative_model (es : List Entry)
    (hwf : allPairs es = true) :
    (firstIdx (fun t => t == CurvePhases.GrowthAcceleration)
        (entriesTypes es) = none →
      modalitiesAlternativeModel_cell (.vec es) = .ok F.nan)
    ∧ (lastIdx (fun t => t == CurvePhases.GrowthRetardation)
        (entriesTypes es) = none →
      modalitiesAlternativeModel_cell (.vec es) = .ok F.nan)
    ∧ (∀ a r,
        firstIdx (fun t => t == CurvePhases.GrowthAcceleration)
          (entriesTypes es) = some a →
        lastIdx (fun t => t == CurvePhases.GrowthRetardation)
          (entriesTypes es) = some r →
        modalitiesAlternativeModel_cell (.vec es)
          = .ok (F.val
              (spec_inner_impulse_count (entriesTypes es) a r))) := by
  have hacc := phase_finder_allPairs CurvePhases.GrowthAcceleration hwf
  have hret := phase_finder_allPairs CurvePhases.GrowthRetardation hwf
  refine ⟨?_, ?_, ?_⟩
  · intro hnone
    have hnil : idxFrom (fun t => t == CurvePhases.GrowthAcceleration) 0
        (entriesTypes es) = [] :=
      idxFrom_eq_nil_of_firstIdx_none hnone 0
    unfold modalitiesAlternativeModel_cell py_inner_impulse_counter
    rw [hacc, hnil]
    rfl
  · intro hnone
    have hnil : idxFrom (fun t => t == CurvePhases.GrowthRetardation) 0
        (entriesTypes es) = [] :=
      idxFrom_eq_nil_of_firstIdx_none
        (lastIdx_none_iff_firstIdx_none.mp hnone) 0
    unfold modalitiesAlternativeModel_cell py_inner_impulse_counter
    rw [hacc, hret, hnil]
    cases hfa : idxFrom (fun t => t == CurvePhases.GrowthAcceleration) 0
        (entriesTypes es) with
    | nil => rfl
    | cons x xs => rfl
  · intro a r hfa hlr
    have haccne : idxFrom (fun t => t == CurvePhases.GrowthAcceleration) 0
        (entriesTypes es) ≠ [] := by
      intro hnil
      have := idxFrom_head? (fun t => t == CurvePhases.GrowthAcceleration)
        (entriesTypes es) 0
      rw [hnil, hfa] at this
      cases this
    have hretne : idxFrom (fun t => t == CurvePhases.GrowthRetardation) 0
        (entriesTypes es) ≠ [] := by
      intro hnil
      have := idxFrom_getLast?
        (fun t => t == CurvePhases.GrowthRetardation) (entriesTypes es) 0
      rw [hnil, hlr] at this
      cases this
    have hhead : (idxFrom (fun t => t == CurvePhases.GrowthAcceleration) 0
        (entriesTypes es)).headD 0 = a := by
      rw [List.headD_eq_head?_getD, idxFrom_head?, hfa]
      simp
    have hlast : (idxFrom (fun t => t == CurvePhases.GrowthRetardation) 0
        (entriesTypes es)).getLastD 0 = r := by
      rw [List.getLastD_eq_getLast?, idxFrom_getLast?, hlr]
      simp
    unfold modalitiesAlternativeModel_cell py_inner_impulse_counter
    rw [hacc, hret]
    dsimp only
    rw [show (idxFrom (fun t => t == CurvePhases.GrowthAcceleration) 0
        (entriesTypes es)).isEmpty = false from
      List.isEmpty_eq_false.mpr haccne]
    rw [show (idxFrom (fun t => t == CurvePhases.GrowthRetardation) 0
        (entriesTypes es)).isEmpty = false from
      List.isEmpty_eq_false.mpr hretne]
    simp only [Bool.false_eq_true, if_false]
    rw [hhead, hlast]
    unfold cellSlice
    dsimp only
    unfold py_impulse_counter
    dsimp only
    rw [countImpulsesE_allPairs (allPairs_slice hwf a (r - a))]
    rw [entriesTypes_slice]
    have hcount : (((entriesTypes es).drop a).take (r - a)).countP
        (fun t => t == CurvePhases.Impulse)
        = spec_inner_impulse_count (entriesTypes es) a r := by
      unfold spec_inner_impulse_count pySlice
      apply countP_slice_exclude_first
      · exact firstIdx_lt_length hfa
      · have := firstIdx_getD hfa
        have heq : (entriesTypes es).getD a CurvePhases.Undetermined
            = CurvePhases.GrowthAcceleration := by
          exact beq_iff_eq.mp this
        rw [heq]
        decide
    rw [hcount]
    have hpos : ¬ ((spec_inner_impulse_count (entriesTypes es) a r : Int)
        < 0) := by
      omega
    simp only [catchTypeToNeg1, hpos, if_false]
    norm_cast

/-- A curve of an Acceleration, an Impulse and a Retardation phase. -/
def cellAccImpRet : Cell :=
  Cell.vec
    [Entry.pair CurvePhases.GrowthAcceleration none,
     Entry.pair CurvePhases.Impulse none,
     Entry.pair CurvePhases.GrowthRetardation none]

/-- Witness for claim C6 at the concrete three-phase curve: one Impulse
lies strictly between the first Acceleration (index 0) and the last
Retardation (index 2). -/
theorem c6_modalities_alternative_model_witness :
    modalitiesAlternativeModel_cell cellAccImpRet = .ok (F.val 1) := by
  have h := (c6_modalities_alternative_model
    [Entry.pair CurvePhases.GrowthAcceleration none,
     Entry.pair CurvePhases.Impulse none,
     Entry.pair CurvePhases.GrowthRetardation none]
    (by decide)).2.2 0 2 (by decide) (by decide)
  unfold cellAccImpRet
  rw [h]
  norm_num [spec_inner_impulse_count, pySlice, entriesTypes,
    Entry.firstType, List.countP_cons]

end Scanomatic
